import Mathlib

/-!
Verification of `catalyst/rl/offpolicy/discrete_sampler.py` (a single
data-collection actor for distributed off-policy RL) against its
natural-language specification.

The Python source is shallowly embedded below.  Machine integers are `Nat`;
python floats used for rewards and epsilon are embedded as `ℚ`; fallible
operations return `Option` or `Except`.  The process-wide random source
(python `random` plus `numpy.random`, both re-seeded by
`set_global_seeds`) is made explicit as a state machine `Rng` with one
state component per stream; the environment and the critic network are
external collaborators and enter as explicit parameters.  Side effects
that no claim observes (tensorboard logging, `print`, device placement)
are omitted.
-/

set_option maxRecDepth 40000

/-- `SEED_RANGE = 2**32 - 2` (discrete_sampler.py line 19). -/
def SEED_RANGE : Nat := 2 ^ 32 - 2

/-- A critic parameter set: mapping from parameter name to a numeric blob
(`state_dict`).  Blob values are embedded as `Int`. -/
abbrev Weights : Type := List (String × Int)

/-- A serialized byte blob, as stored under a redis key. -/
abbrev Blob : Type := List Nat

/-- The critic as the sampler sees it: its parameters together with its
train/eval mode flag (`critic.eval()` disables stochastic regularization). -/
structure Critic where
  params : Weights
  evalMode : Bool
deriving DecidableEq

/-- Exceptions that `Sampler.load_critic_weights` can raise.
`weightsUnavailable` stands for the failure of `deserialize` on a missing
or malformed redis value (the spec's `WeightsUnavailableError`);
`notImplemented` is the literal `raise NotImplementedError` on line 127. -/
inductive LoadError where
  | weightsUnavailable
  | notImplemented
deriving DecidableEq

/-- The redis server as the weight-load path sees it: a key-value GET
returning the serialized blob, or `none` when the key is absent. -/
structure RedisServer where
  get : String → Option Blob

/-- Run mode of the sampler (`mode` constructor argument, `{train, infer}`). -/
inductive Mode where
  | train
  | infer
deriving DecidableEq

/-- The process-wide random source, with the python `random` stream and the
`numpy.random` stream kept separate (they are distinct generators that
`set_global_seeds` seeds together).  States of each stream are `Nat`.
`pyRandrange` embeds `random.randrange(SEED_RANGE)`, `pyChoice` embeds
`random.choice(pool)`, `npRand` embeds `np.random.rand()`, `npRandint`
embeds `np.random.randint(n)`, and `seedPy`/`seedNp` embed the effect of
`set_global_seeds` on the respective stream. -/
structure Rng where
  pyRandrange : Nat → Nat × Nat
  pyChoice : List Nat → Nat → Nat × Nat
  npRand : Nat → ℚ × Nat
  npRandint : Nat → Nat → Nat × Nat
  seedPy : Nat → Nat
  seedNp : Nat → Nat

/-- Well-formedness of the random source: `random.randrange(SEED_RANGE)`
draws in `[0, SEED_RANGE)` and `random.choice` picks an element of a
nonempty pool. -/
def Rng.WF (rng : Rng) : Prop :=
  (∀ s, (rng.pyRandrange s).1 < SEED_RANGE) ∧
  (∀ l s, l ≠ [] → (rng.pyChoice l s).1 ∈ l)

/-- The result of one `env.step(action)` call:
`(next_obs, reward, done, info)` with the optional
`info["reward_origin"]` side channel (0 when absent). -/
structure StepResult (S Obs : Type) where
  nextState : S
  nextObs : Obs
  reward : ℚ
  done : Bool
  rewardOrigin : ℚ

/-- The environment collaborator.  `reset` is called immediately after
`set_global_seeds(seed)`, so it receives that episode seed; it returns the
fresh environment state and the initial observation. -/
structure Env (S Obs : Type) where
  reset : Nat → S × Obs
  step : S → Nat → StepResult S Obs

/-- Modelled from the spec: `SamplerBuffer`
(`catalyst.rl.offpolicy.utils`, not part of the sources under
verification) is the spec's `EpisodeBuffer`: a single-episode transition
store holding four parallel sequences.  Capacity bookkeeping is omitted
(the spec notes the source's overflow behavior is undefined and no claim
depends on it). -/
structure SamplerBuffer (Obs : Type) where
  observations : List Obs
  actions : List Nat
  rewards : List ℚ
  dones : List Bool
deriving DecidableEq

/-- A fresh, empty buffer (`SamplerBuffer(...)` construction). -/
def SamplerBuffer.empty {Obs : Type} : SamplerBuffer Obs :=
  { observations := [], actions := [], rewards := [], dones := [] }

/-- Modelled from the spec: `init_with_observation` seeds frame 0 with the
initial observation, discarding prior contents. -/
def SamplerBuffer.initWithObservation {Obs : Type} (obs : Obs) : SamplerBuffer Obs :=
  { observations := [obs], actions := [], rewards := [], dones := [] }

/-- Modelled from the spec: `push_transition([next_obs, action, reward, done])`
appends one transition to the four parallel sequences. -/
def SamplerBuffer.pushTransition {Obs : Type} (buf : SamplerBuffer Obs)
    (obs : Obs) (action : Nat) (reward : ℚ) (done : Bool) : SamplerBuffer Obs :=
  { observations := buf.observations ++ [obs],
    actions := buf.actions ++ [action],
    rewards := buf.rewards ++ [reward],
    dones := buf.dones ++ [done] }

/-- Modelled from the spec: `get_state(history_len)` returns the last
`history_len` observations ending at the current frame, left-padding by
repeating the earliest observation when fewer frames exist. -/
def SamplerBuffer.getState {Obs : Type} [Inhabited Obs]
    (buf : SamplerBuffer Obs) (historyLen : Nat) : List Obs :=
  let n := buf.observations.length
  if historyLen ≤ n then buf.observations.drop (n - historyLen)
  else List.replicate (historyLen - n) (buf.observations.headD default) ++ buf.observations

/-- A completed episode as pushed to the trajectory queue: the four
parallel sequences (`store_episode` lines 133-140; serialization is the
identity on this abstract representation). -/
structure Episode (Obs : Type) where
  observations : List Obs
  actions : List Nat
  rewards : List ℚ
  dones : List Bool
deriving DecidableEq

/-- Modelled from the spec: `get_complete_episode` returns the four parallel
sequences and fails (`IncompleteEpisodeError`) unless the last `done` is
true. -/
def SamplerBuffer.getCompleteEpisode {Obs : Type} (buf : SamplerBuffer Obs) :
    Option (Episode Obs) :=
  if buf.dones.getLast? = some true then
    some { observations := buf.observations, actions := buf.actions,
           rewards := buf.rewards, dones := buf.dones }
  else none

/-- Construction-time configuration of `Sampler.__init__` (lines 39-58).
`resume` is the checkpoint path; `redis` the shared store handle; both are
optional and the code never validates how many are present.
`episode_limit = none` models passing `None`. -/
structure SamplerConfig where
  id : Nat
  num_actions : Nat
  history_len : Nat
  weights_sync_period : Nat
  mode : Mode
  resume : Option String
  redis : Option RedisServer
  redisPrefixStr : String
  exploration_eps_init : ℚ
  exploration_eps_final : ℚ
  exploration_annealing_steps : Nat
  seeds : Option (List Nat)
  episode_limit : Option Nat
  force_store : Bool

/-- `self._seed = 42 + id` (line 61). -/
def SamplerConfig.baseSeed (cfg : SamplerConfig) : Nat := 42 + cfg.id

/-- `self.eps_delta = (eps_init - eps_final) / exploration_annealing_steps`
(lines 82-83). -/
def SamplerConfig.epsDelta (cfg : SamplerConfig) : ℚ :=
  (cfg.exploration_eps_init - cfg.exploration_eps_final) /
    (cfg.exploration_annealing_steps : ℚ)

/-- `self.episode_limit = episode_limit or int(2**32 - 2)` (line 71):
python `or` substitutes the default for `None` and for `0` alike. -/
def SamplerConfig.limit (cfg : SamplerConfig) : Nat :=
  match cfg.episode_limit with
  | none => 2 ^ 32 - 2
  | some n => if n = 0 then 2 ^ 32 - 2 else n

/-- `self.infer = mode == "infer"` (line 85). -/
def SamplerConfig.isInfer (cfg : SamplerConfig) : Bool :=
  decide (cfg.mode = Mode.infer)

/-- The episode-store guard `not self.infer or self.force_store` (line 191). -/
def SamplerConfig.doStore (cfg : SamplerConfig) : Bool :=
  (!cfg.isInfer) || cfg.force_store

/-- Whether a shared queue handle is configured (`redis_server is not None`). -/
def SamplerConfig.hasRedis (cfg : SamplerConfig) : Bool :=
  cfg.redis.isSome

/-- The update `self.eps = max(self.eps - self.eps_delta, self.eps_final)`
executed once per environment step (line 181). -/
def epsStep (cfg : SamplerConfig) (e : ℚ) : ℚ :=
  max (e - cfg.epsDelta) cfg.exploration_eps_final

/-- First index of the maximum of a score list, as `np.argmax` computes it
(ties resolve to the earliest index).  Auxiliary fold. -/
def argmaxAux : List ℚ → ℚ → Nat → Nat → Nat
  | [], _, best, _ => best
  | x :: xs, bv, best, cur =>
    if bv < x then argmaxAux xs x cur (cur + 1)
    else argmaxAux xs bv best (cur + 1)

/-- `np.argmax` over the critic's per-action scores (line 148). -/
def argmaxIdx : List ℚ → Nat
  | [] => 0
  | x :: xs => argmaxAux xs x 0 1

/-- The pure fields `Sampler.__init__` computes (lines 39-101).  There is no
backend validation anywhere in the constructor; it is a total function of
the configuration.  External side effects (device placement, deep copy of
the critic, tensorboard writer, buffer allocation) are omitted. -/
structure SamplerInit where
  theSeed : Nat
  pyState : Nat
  npState : Nat
  episodeLimitN : Nat
  eps : ℚ
  epsFinalV : ℚ
  epsDeltaV : ℚ
  inferFlag : Bool
  episodeIndex0 : Nat

/-- `Sampler.__init__`: seeds the global random source with `42 + id` and
records the derived configuration fields. -/
def Sampler.construct (cfg : SamplerConfig) (rng : Rng) : SamplerInit :=
  { theSeed := cfg.baseSeed,
    pyState := rng.seedPy cfg.baseSeed,
    npState := rng.seedNp cfg.baseSeed,
    episodeLimitN := cfg.limit,
    eps := cfg.exploration_eps_init,
    epsFinalV := cfg.exploration_eps_final,
    epsDeltaV := cfg.epsDelta,
    inferFlag := cfg.isInfer,
    episodeIndex0 := 0 }

section Embedding

variable {S Obs : Type}

/-- `Sampler.load_critic_weights` (lines 115-128).  The checkpoint branch
reads `checkpoint["critic_state_dict"]` at the fixed path (`ckptFS` maps a
path to that state dict); the redis branch GETs `{prefix}_critic_weights`,
deserializes it (`decode`, modelled from the spec: the serialization
module is external, and per the spec a missing or malformed value fails
with `WeightsUnavailableError`), and moves each value to the device
(`toT`).  `load_state_dict` with its default `strict=True` replaces the
whole parameter set, and `self.critic.eval()` then switches the critic to
evaluation mode.  With neither backend the code raises
`NotImplementedError`. -/
def load_critic_weights (cfg : SamplerConfig) (ckptFS : String → Weights)
    (decode : Blob → Option Weights) (toT : Int → Int)
    (critic : Critic) : Except LoadError Critic :=
  match cfg.resume with
  | some path => Except.ok { params := ckptFS path, evalMode := true }
  | none =>
    match cfg.redis with
    | some server =>
      match server.get (cfg.redisPrefixStr ++ "_critic_weights") with
      | none => Except.error LoadError.weightsUnavailable
      | some blob =>
        match decode blob with
        | none => Except.error LoadError.weightsUnavailable
        | some w =>
          Except.ok { params := w.map (fun kv => (kv.1, toT kv.2)), evalMode := true }
    | none => Except.error LoadError.notImplemented

/-- Ghost record of one completed episode: the seeds its reseeding drew,
its step count and accumulated reward, and whether it was pushed to the
trajectory queue. -/
structure EpisodeRecord where
  phase1Draw : Nat
  phase1Seed : Nat
  episodeSeed : Nat
  steps : Nat
  reward : ℚ
  stored : Bool
deriving DecidableEq

/-- The mutable state of `Sampler.run` (lines 153-256): exploration eps,
the two random streams, environment state, episode buffer, critic, the
trajectory queue (`rpush "trajectories"` target), the episode and step
indices, the per-episode reward accumulators, and ghost instrumentation:
the list of per-episode records emitted so far plus the seeds drawn by the
current episode's reseeding (`cd1` the phase-1 draw, `cs1` the phase-1
decorrelation seed, `cs2` the episode seed). -/
structure St (S Obs : Type) where
  eps : ℚ
  py : Nat
  npS : Nat
  envS : S
  buf : SamplerBuffer Obs
  critic : Critic
  queue : List (Episode Obs)
  episode_index : Nat
  step_index : Nat
  episode_reward : ℚ
  episode_reward_orig : ℚ
  records : List EpisodeRecord
  cd1 : Nat
  cs1 : Nat
  cs2 : Nat

variable (cfg : SamplerConfig) (env : Env S Obs) (rng : Rng)

/-- The two-phase reseeding plus buffer/environment reset executed before
the first episode (lines 156-169) and between episodes (lines 236-250):
recreate the buffer; phase 1 draws `d1 = random.randrange(SEED_RANGE)` and
applies `set_global_seeds(self._seed + d1)`; phase 2 derives the episode
seed — `random.randrange(SEED_RANGE)` when no seed pool is configured,
else `random.choice(seeds)` — applies `set_global_seeds` again, and calls
`env.reset()`, initializing the buffer with the returned observation.
Step counters and reward accumulators restart at 0 (lines 171-175,
252-256). -/
def doReset (st : St S Obs) : St S Obs :=
  let d1p := rng.pyRandrange st.py
  let s1 := cfg.baseSeed + d1p.1
  let py2 := rng.seedPy s1
  let _np2 := rng.seedNp s1
  let s2p :=
    match cfg.seeds with
    | none => rng.pyRandrange py2
    | some pool => rng.pyChoice pool py2
  let py4 := rng.seedPy s2p.1
  let np3 := rng.seedNp s2p.1
  let ro := env.reset s2p.1
  { st with
    py := py4, npS := np3, envS := ro.1,
    buf := SamplerBuffer.initWithObservation ro.2,
    step_index := 0, episode_reward := 0, episode_reward_orig := 0,
    cd1 := d1p.1, cs1 := s1, cs2 := s2p.1 }

variable (qvalues : Weights → List Obs → List ℚ)

/-- `Sampler.act` (lines 144-151): stack the history, query the critic for
per-action scores, take the greedy argmax, then with probability `eps`
(one `np.random.rand()` draw, always consumed) replace it by a uniform
`np.random.randint(num_actions)`.  Returns the chosen action and the new
numpy stream state. -/
def act [Inhabited Obs] (st : St S Obs) : Nat × Nat :=
  let state := st.buf.getState cfg.history_len
  let q := qvalues st.critic.params state
  let greedy := argmaxIdx q
  let r1 := rng.npRand st.npS
  if r1.1 < st.eps then rng.npRandint cfg.num_actions r1.2
  else (greedy, r1.2)

/-- One iteration of the inner `while not done` loop (lines 178-188):
choose an action, decay eps (line 181), step the environment, accumulate
rewards, push the transition, bump the step index.  Returns the updated
state together with the `done` flag. -/
def innerBody [Inhabited Obs] (st : St S Obs) : St S Obs × Bool :=
  let ar := act cfg rng qvalues st
  let sr := env.step st.envS ar.1
  ({ st with
     npS := ar.2,
     eps := epsStep cfg st.eps,
     envS := sr.nextState,
     episode_reward := st.episode_reward + sr.reward,
     episode_reward_orig := st.episode_reward_orig + sr.rewardOrigin,
     buf := st.buf.pushTransition sr.nextObs ar.1 sr.reward sr.done,
     step_index := st.step_index + 1 }, sr.done)

/-- The inner `while not done` loop, fuel-indexed: `none` models an episode
that does not finish within `fuel` environment steps. -/
def innerLoop [Inhabited Obs] : Nat → St S Obs → Option (St S Obs)
  | 0, _ => none
  | fuel + 1, st =>
    let bd := innerBody cfg env rng qvalues st
    if bd.2 then some bd.1 else innerLoop fuel bd.1

/-- `Sampler.store_episode` (lines 130-142): with no shared queue handle it
returns immediately; otherwise it serializes the completed episode and
appends it to the tail of the `"trajectories"` queue.  `none` models the
`IncompleteEpisodeError` of `get_complete_episode`. -/
def store_episode (st : St S Obs) : Option (List (Episode Obs)) :=
  match cfg.redis with
  | none => some st.queue
  | some _ =>
    match st.buf.getCompleteEpisode with
    | none => none
    | some ep => some (st.queue ++ [ep])

/-- The final observable outcome of `Sampler.run`: the per-episode ghost
records, the trajectory queue contents, and the final eps, critic and
episode index. -/
structure RunResult (Obs : Type) where
  records : List EpisodeRecord
  queue : List (Episode Obs)
  finalEps : ℚ
  finalCritic : Critic
  finalIndex : Nat
deriving DecidableEq

/-- Outcome of one trip around the outer loop: either the run function
returns (line 231), or it continues with the state for the next episode. -/
inductive RoundOut (S Obs : Type) where
  | finished (res : RunResult Obs)
  | next (st : St S Obs)

variable (ckptFS : String → Weights) (decode : Blob → Option Weights) (toT : Int → Int)

/-- One trip around the outer `while True` loop after the inner loop ends
(lines 190-256): conditionally store the episode (line 191), append the
ghost record, increment the episode index (line 228), return when the
index reaches the limit (lines 230-231), otherwise reload weights at the
sync boundary (lines 233-234) and re-seed/reset for the next episode
(lines 236-256). -/
def episodeRound [Inhabited Obs] (ifuel : Nat) (st : St S Obs) :
    Option (RoundOut S Obs) :=
  match innerLoop cfg env rng qvalues ifuel st with
  | none => none
  | some st1 =>
    match (if cfg.doStore then store_episode cfg st1 else some st1.queue) with
    | none => none
    | some q1 =>
      let rcd : EpisodeRecord :=
        { phase1Draw := st1.cd1, phase1Seed := st1.cs1, episodeSeed := st1.cs2,
          steps := st1.step_index, reward := st1.episode_reward,
          stored := cfg.doStore && cfg.hasRedis }
      let idx1 := st1.episode_index + 1
      let st2 : St S Obs :=
        { st1 with
          queue := q1, episode_index := idx1,
          records := st1.records ++ [rcd] }
      if cfg.limit ≤ idx1 then
        some (RoundOut.finished
          { records := st2.records, queue := st2.queue, finalEps := st2.eps,
            finalCritic := st2.critic, finalIndex := idx1 })
      else
        match (if idx1 % cfg.weights_sync_period = 0
                then load_critic_weights cfg ckptFS decode toT st2.critic
                else Except.ok st2.critic) with
        | Except.error _ => none
        | Except.ok c1 =>
          some (RoundOut.next (doReset cfg env rng { st2 with critic := c1 }))

/-- The outer `while True` loop, fuel-indexed over episodes. -/
def outerLoop [Inhabited Obs] : Nat → Nat → St S Obs → Option (RunResult Obs)
  | 0, _, _ => none
  | ofuel + 1, ifuel, st =>
    match episodeRound cfg env rng qvalues ckptFS decode toT ifuel st with
    | none => none
    | some (RoundOut.finished res) => some res
    | some (RoundOut.next st1) => outerLoop ofuel ifuel st1

/-- The state of `Sampler.run` just after line 154 (`episode_index = 1`)
and the weight load, before the initial reseed-and-reset.  The fields that
the first `doReset` overwrites before anything reads them (environment
state, buffer, seed ghosts) carry placholder values here.  The two random
streams are as `__init__` seeded them (`set_global_seeds(42 + id)`). -/
def initialSt (c1 : Critic) : St S Obs :=
  { eps := cfg.exploration_eps_init,
    py := rng.seedPy cfg.baseSeed,
    npS := rng.seedNp cfg.baseSeed,
    envS := (env.reset 0).1,
    buf := SamplerBuffer.empty,
    critic := c1,
    queue := [],
    episode_index := 1,
    step_index := 0,
    episode_reward := 0,
    episode_reward_orig := 0,
    records := [],
    cd1 := 0, cs1 := 0, cs2 := 0 }

/-- `Sampler.run` (lines 153-256): set the episode index to 1, load the
critic weights once (line 155), perform the initial reseed-and-reset
(lines 156-169), then loop.  `none` models a raised exception or exhausted
fuel. -/
def runSampler [Inhabited Obs] (critic0 : Critic) (ifuel ofuel : Nat) :
    Option (RunResult Obs) :=
  match load_critic_weights cfg ckptFS decode toT critic0 with
  | Except.error _ => none
  | Except.ok c1 =>
    outerLoop cfg env rng qvalues ckptFS decode toT ofuel ifuel
      (doReset cfg env rng (initialSt cfg env rng c1))

/-- The python-random-stream projection of the reseeding protocol: the
sequence of the next `n` episode seeds produced from python random state
`py`, exactly as `doReset` derives them (the inner loop never touches the
python stream, so this is the whole dependence). -/
def resetSeedsFrom : Nat → Nat → List Nat
  | 0, _ => []
  | n + 1, py =>
    let d1p := rng.pyRandrange py
    let py2 := rng.seedPy (cfg.baseSeed + d1p.1)
    let s2p :=
      match cfg.seeds with
      | none => rng.pyRandrange py2
      | some pool => rng.pyChoice pool py2
    s2p.1 :: resetSeedsFrom n (rng.seedPy s2p.1)

/-- The two-phase seeding contract for one episode: the phase-1 seed is
`base_actor_seed` plus a draw in `[0, SEED_RANGE)`, and the episode seed
is a fresh draw in `[0, SEED_RANGE)` when no pool is configured, else a
member of the pool. -/
def protocolOK (d s1 s2 : Nat) : Prop :=
  s1 = cfg.baseSeed + d ∧ d < SEED_RANGE ∧
  (cfg.seeds = none → s2 < SEED_RANGE) ∧
  (∀ l, cfg.seeds = some l → s2 ∈ l)

end Embedding

/-- Stub environment producing fixed `k`-step episodes: the state counts
steps since reset, and `done` is raised on the `k`-th step.  Observations
are the constant `0`. -/
def stubEnv (k : Nat) : Env Nat Int :=
  { reset := fun _ => (0, 0),
    step := fun s _ =>
      { nextState := s + 1, nextObs := 0, reward := 1,
        done := decide (k ≤ s + 1), rewardOrigin := 0 } }

/-- A concrete well-formed random source used to instantiate witnesses:
each stream state is a counter, draws are reductions of the counter. -/
def stubRng : Rng :=
  { pyRandrange := fun s => (s % SEED_RANGE, s + 1),
    pyChoice := fun l s => (l.getD (s % l.length) 0, s + 1),
    npRand := fun s => (1, s + 1),
    npRandint := fun _ s => (0, s + 1),
    seedPy := fun n => n,
    seedNp := fun n => n }

/-- Constant-score stub estimator: every action scores 0. -/
def stubQ : Weights → List Int → List ℚ := fun _ _ => [0, 0]

/-- Stub checkpoint filesystem: every path holds one named parameter. -/
def stubCkpt : String → Weights := fun _ => [("w", 7)]

/-- Stub deserializer that accepts every blob. -/
def stubDecode : Blob → Option Weights := fun _ => some [("w", 7)]

/-- Stub shared store whose weight key is always present. -/
def stubServer : RedisServer := { get := fun _ => some [1] }

/-- A default critic to start runs from. -/
def critic0 : Critic := { params := [], evalMode := false }

/-- Base concrete configuration for witnesses: train mode, checkpoint
backend, shared queue attached, `episode_limit = 3`, sync period 1. -/
def baseCfg : SamplerConfig :=
  { id := 0, num_actions := 2, history_len := 1, weights_sync_period := 1,
    mode := Mode.train, resume := some "ckpt", redis := some stubServer,
    redisPrefixStr := "mdl", exploration_eps_init := 1,
    exploration_eps_final := 0, exploration_annealing_steps := 10,
    seeds := none, episode_limit := some 3, force_store := false }

/-- A second constant-score stub estimator, used to vary the estimator
between two runs. -/
def stubQ2 : Weights → List Int → List ℚ := fun _ _ => [1, 2]

/-- A shared store whose weight key is absent. -/
def emptyServer : RedisServer := { get := fun _ => none }

/-- Zero weight backends configured: neither checkpoint nor shared store. -/
def cfgZeroBackend : SamplerConfig := { baseCfg with resume := none, redis := none }

/-- Infer mode with the force-store override. -/
def cfgInfer : SamplerConfig := { baseCfg with mode := Mode.infer, force_store := true }

/-- Train mode with no shared queue handle. -/
def cfgNoRedis : SamplerConfig := { baseCfg with redis := none }

/-- A fixed seed pool configured. -/
def cfgPool : SamplerConfig := { baseCfg with seeds := some [7, 11] }

/-- Shared-store backend only (no checkpoint), key present. -/
def cfgStoreOnly : SamplerConfig := { baseCfg with resume := none }

/-- Shared-store backend only, key absent. -/
def cfgStoreErr : SamplerConfig :=
  { baseCfg with resume := none, redis := some emptyServer }

/-- Fallback result used to name concrete run outcomes. -/
def dfltRes : RunResult Int :=
  { records := [], queue := [], finalEps := 0, finalCritic := critic0,
    finalIndex := 0 }

/-- Shorthand: a concrete run over the `k`-step stub environment with the
stub random source and checkpoint/decoder stubs, fuels 6 and 4. -/
def runOf (cfg : SamplerConfig) (k : Nat)
    (qv : Weights → List Int → List ℚ) : Option (RunResult Int) :=
  runSampler cfg (stubEnv k) stubRng qv stubCkpt stubDecode (fun v => v)
    critic0 6 4

/-- The result of a concrete run, at the fallback when the run fails. -/
def resOf (cfg : SamplerConfig) (k : Nat)
    (qv : Weights → List Int → List ℚ) : RunResult Int :=
  (runOf cfg k qv).getD dfltRes

theorem getLast?_append_one {α : Type} (l : List α) (a : α) :
    (l ++ [a]).getLast? = some a := by
  simp [List.getLast?_append]

section Lemmas

variable {S Obs : Type} [Inhabited Obs]
variable (cfg : SamplerConfig) (env : Env S Obs) (rng : Rng)
variable (qvalues : Weights → List Obs → List ℚ)
variable (ckptFS : String → Weights) (decode : Blob → Option Weights) (toT : Int → Int)

/-- One inner-loop iteration leaves the python stream, the ghost records,
the queue, the episode index, the critic and the current-episode seeds
untouched; it bumps the step index by one, applies exactly one eps-decay
update, and when it reports `done` the last pushed `done` flag is true. -/
theorem innerBody_spec (st : St S Obs) :
    (innerBody cfg env rng qvalues st).1.py = st.py ∧
    (innerBody cfg env rng qvalues st).1.records = st.records ∧
    (innerBody cfg env rng qvalues st).1.queue = st.queue ∧
    (innerBody cfg env rng qvalues st).1.episode_index = st.episode_index ∧
    (innerBody cfg env rng qvalues st).1.critic = st.critic ∧
    (innerBody cfg env rng qvalues st).1.cd1 = st.cd1 ∧
    (innerBody cfg env rng qvalues st).1.cs1 = st.cs1 ∧
    (innerBody cfg env rng qvalues st).1.cs2 = st.cs2 ∧
    (innerBody cfg env rng qvalues st).1.step_index = st.step_index + 1 ∧
    (innerBody cfg env rng qvalues st).1.eps = epsStep cfg st.eps ∧
    ((innerBody cfg env rng qvalues st).2 = true →
      (innerBody cfg env rng qvalues st).1.buf.dones.getLast? = some true) := by
  refine ⟨rfl, rfl, rfl, rfl, rfl, rfl, rfl, rfl, rfl, rfl, ?_⟩
  intro h
  show (st.buf.pushTransition _ _ _ (env.step st.envS _).done).dones.getLast? = some true
  rw [show (env.step st.envS (act cfg rng qvalues st).1).done = true from h]
  simp [SamplerBuffer.pushTransition, getLast?_append_one]

/-- Invariants of the whole inner `while not done` loop. -/
theorem innerLoop_spec :
    ∀ fuel (st st' : St S Obs),
      innerLoop cfg env rng qvalues fuel st = some st' →
      st'.py = st.py ∧ st'.records = st.records ∧ st'.queue = st.queue ∧
      st'.episode_index = st.episode_index ∧ st'.critic = st.critic ∧
      st'.cd1 = st.cd1 ∧ st'.cs1 = st.cs1 ∧ st'.cs2 = st.cs2 ∧
      st.step_index ≤ st'.step_index ∧
      st'.eps = (epsStep cfg)^[st'.step_index - st.step_index] st.eps ∧
      st'.buf.dones.getLast? = some true := by
  intro fuel
  induction fuel with
  | zero => intro st st' h; simp [innerLoop] at h
  | succ n ih =>
    intro st st' h
    rw [innerLoop] at h
    obtain ⟨b1, b2, b3, b4, b5, b6, b7, b8, b9, b10, b11⟩ :=
      innerBody_spec cfg env rng qvalues st
    by_cases hd : (innerBody cfg env rng qvalues st).2
    · rw [if_pos hd] at h
      cases h
      refine ⟨b1, b2, b3, b4, b5, b6, b7, b8, ?_, ?_, b11 hd⟩
      · omega
      · rw [b9, b10, Nat.add_sub_cancel_left]
        exact (Function.iterate_one (epsStep cfg) ▸ rfl)
    · rw [if_neg hd] at h
      obtain ⟨i1, i2, i3, i4, i5, i6, i7, i8, i9, i10, i11⟩ :=
        ih (innerBody cfg env rng qvalues st).1 st' h

      refine ⟨i1.trans b1, i2.trans b2, i3.trans b3, i4.trans b4, i5.trans b5,
        i6.trans b6, i7.trans b7, i8.trans b8, by omega, ?_, i11⟩
      rw [i10, b9, b10]
      have hstep : st.step_index + 1 ≤ st'.step_index := b9 ▸ i9
      have harith : st'.step_index - st.step_index
          = (st'.step_index - (st.step_index + 1)) + 1 := by omega
      rw [harith, Function.iterate_succ_apply]

/-- The reseed-and-reset phase preserves eps, the ghost records, the queue,
the episode index and the critic; it zeroes the step counter, and it
leaves both random streams seeded with the episode seed that the
environment reset receives. -/
theorem doReset_spec (st : St S Obs) :
    (doReset cfg env rng st).eps = st.eps ∧
    (doReset cfg env rng st).records = st.records ∧
    (doReset cfg env rng st).queue = st.queue ∧
    (doReset cfg env rng st).episode_index = st.episode_index ∧
    (doReset cfg env rng st).critic = st.critic ∧
    (doReset cfg env rng st).step_index = 0 ∧
    (doReset cfg env rng st).py = rng.seedPy (doReset cfg env rng st).cs2 ∧
    (doReset cfg env rng st).npS = rng.seedNp (doReset cfg env rng st).cs2 ∧
    (doReset cfg env rng st).envS = (env.reset (doReset cfg env rng st).cs2).1 := by
  cases hs : cfg.seeds <;> simp [doReset, hs]

/-- Projection facts about `doReset`, stated one by one for rewriting. -/
theorem doReset_eps (st : St S Obs) : (doReset cfg env rng st).eps = st.eps := by
  cases hs : cfg.seeds <;> simp [doReset, hs]

/-- The reset leaves the ghost record list unchanged. -/
theorem doReset_records (st : St S Obs) :
    (doReset cfg env rng st).records = st.records := by
  cases hs : cfg.seeds <;> simp [doReset, hs]

/-- The reset leaves the trajectory queue unchanged. -/
theorem doReset_queue (st : St S Obs) :
    (doReset cfg env rng st).queue = st.queue := by
  cases hs : cfg.seeds <;> simp [doReset, hs]

/-- The reset leaves the episode index unchanged. -/
theorem doReset_episode_index (st : St S Obs) :
    (doReset cfg env rng st).episode_index = st.episode_index := by
  cases hs : cfg.seeds <;> simp [doReset, hs]

/-- The reset leaves the critic unchanged. -/
theorem doReset_critic (st : St S Obs) :
    (doReset cfg env rng st).critic = st.critic := by
  cases hs : cfg.seeds <;> simp [doReset, hs]

/-- The reset zeroes the step counter. -/
theorem doReset_step_index (st : St S Obs) :
    (doReset cfg env rng st).step_index = 0 := by
  cases hs : cfg.seeds <;> simp [doReset, hs]

/-- The reset calls the environment reset with the episode seed it drew. -/
theorem doReset_envS (st : St S Obs) :
    (doReset cfg env rng st).envS = (env.reset (doReset cfg env rng st).cs2).1 := by
  cases hs : cfg.seeds <;> simp [doReset, hs]

/-- The episode seed drawn by a reset, followed by the next `m` seeds from
the post-reset python state, is exactly the seed list from the pre-reset
python state: `doReset` and `resetSeedsFrom` agree. -/
theorem doReset_seedChain (st : St S Obs) (m : Nat) :
    (doReset cfg env rng st).cs2 ::
      resetSeedsFrom cfg rng m (doReset cfg env rng st).py
    = resetSeedsFrom cfg rng (m + 1) st.py := by
  cases hs : cfg.seeds <;> simp [doReset, resetSeedsFrom, hs]

/-- Every reset obeys the two-phase seeding contract, given a well-formed
random source and a nonempty pool when one is configured. -/
theorem doReset_protocol (st : St S Obs) (hwf : rng.WF)
    (hpool : ∀ l, cfg.seeds = some l → l ≠ []) :
    protocolOK cfg (doReset cfg env rng st).cd1 (doReset cfg env rng st).cs1
      (doReset cfg env rng st).cs2 := by
  obtain ⟨hw1, hw2⟩ := hwf
  cases hs : cfg.seeds with
  | none =>
    refine ⟨rfl, ?_, ?_, ?_⟩ <;> simp [doReset, hs]
    · exact hw1 _
    · exact hw1 _
  | some pool =>
    refine ⟨rfl, ?_, ?_, ?_⟩ <;> simp [doReset, hs]
    · exact hw1 _
    · exact hw2 pool _ (hpool pool hs)

/-- With no shared queue handle, `store_episode` returns immediately and
pushes nothing. -/
theorem store_episode_no_redis (st : St S Obs) (h : cfg.redis = none) :
    store_episode cfg st = some st.queue := by
  simp [store_episode, h]

/-- With a shared queue handle, a successful `store_episode` appends exactly
one episode. -/
theorem store_episode_redis_len (st : St S Obs) (q : List (Episode Obs))
    (hr : cfg.hasRedis = true) (h : store_episode cfg st = some q) :
    q.length = st.queue.length + 1 := by
  unfold store_episode at h
  cases hs : cfg.redis with
  | none => rw [SamplerConfig.hasRedis, hs] at hr; simp at hr
  | some server =>
    rw [hs] at h
    cases hc : st.buf.getCompleteEpisode with
    | none => rw [hc] at h; simp at h
    | some ep => rw [hc] at h; cases h; simp

/-- When one trip around the outer loop ends the run (line 231), the limit
was just reached, exactly one more record was appended (its seeds being
the current episode's seeds, its step count the inner-loop count), eps
advanced by exactly that many decay updates, and the queue grew by one
entry exactly when a queue handle is attached and storing is enabled. -/
theorem episodeRound_finished_spec (ifuel : Nat) (st st1 : St S Obs)
    (res : RunResult Obs) (hsi : st.step_index = 0)
    (hi : innerLoop cfg env rng qvalues ifuel st = some st1)
    (h : episodeRound cfg env rng qvalues ckptFS decode toT ifuel st
          = some (RoundOut.finished res)) :
    cfg.limit ≤ st.episode_index + 1 ∧
    res.finalIndex = st.episode_index + 1 ∧
    res.records = st.records ++
      [{ phase1Draw := st.cd1, phase1Seed := st.cs1, episodeSeed := st.cs2,
         steps := st1.step_index, reward := st1.episode_reward,
         stored := cfg.doStore && cfg.hasRedis }] ∧
    res.finalEps = (epsStep cfg)^[st1.step_index] st.eps ∧
    (cfg.hasRedis = false → res.queue = st.queue) ∧
    (cfg.doStore = false → res.queue = st.queue) ∧
    (cfg.hasRedis = true → cfg.doStore = true →
      res.queue.length = st.queue.length + 1) := by
  simp only [episodeRound, hi] at h
  obtain ⟨i1, i2, i3, i4, i5, i6, i7, i8, i9, i10, i11⟩ :=
    innerLoop_spec cfg env rng qvalues ifuel st st1 hi
  split at h
  · exact absurd h (by simp)
  · rename_i q1 hq
    split at h
    · rename_i hl
      simp only [Option.some.injEq, RoundOut.finished.injEq] at h
      subst h
      refine ⟨i4 ▸ hl, i4 ▸ rfl, ?_, ?_, ?_, ?_, ?_⟩
      · simp [i2, i6, i7, i8]
      · simp only
        rw [i10, hsi, Nat.sub_zero]
      · intro hr
        have hrn : cfg.redis = none := by
          rw [SamplerConfig.hasRedis] at hr
          cases hc : cfg.redis with
          | none => rfl
          | some server => rw [hc] at hr; simp at hr
        by_cases hds : cfg.doStore = true
        · rw [if_pos hds, store_episode_no_redis cfg st1 hrn] at hq
          cases hq
          simpa using i3
        · rw [if_neg hds] at hq
          cases hq
          simpa using i3
      · intro hds
        rw [if_neg (by simp [hds])] at hq
        cases hq
        simpa using i3
      · intro hr hds
        rw [if_pos hds] at hq
        have := store_episode_redis_len cfg st1 q1 hr hq
        simpa [i3] using this
    · split at h <;> simp_all

/-- When one trip around the outer loop continues (another episode starts),
the limit was not reached, the episode index advanced by one, one record
was appended, eps advanced by the episode's step count and is preserved by
the reset, the queue grew as dictated by the store condition, and the next
state is freshly reset: step counter zero, seeds drawn by the two-phase
protocol, continuing the python seed stream. -/
theorem episodeRound_next_spec (ifuel : Nat) (st st1 st3 : St S Obs)
    (hsi : st.step_index = 0)
    (hi : innerLoop cfg env rng qvalues ifuel st = some st1)
    (h : episodeRound cfg env rng qvalues ckptFS decode toT ifuel st
          = some (RoundOut.next st3)) :
    st.episode_index + 2 ≤ cfg.limit ∧
    st3.episode_index = st.episode_index + 1 ∧
    st3.step_index = 0 ∧
    st3.envS = (env.reset st3.cs2).1 ∧
    (∀ m, st3.cs2 :: resetSeedsFrom cfg rng m st3.py
      = resetSeedsFrom cfg rng (m + 1) st.py) ∧
    (rng.WF → (∀ l, cfg.seeds = some l → l ≠ []) →
      protocolOK cfg st3.cd1 st3.cs1 st3.cs2) ∧
    st3.records = st.records ++
      [{ phase1Draw := st.cd1, phase1Seed := st.cs1, episodeSeed := st.cs2,
         steps := st1.step_index, reward := st1.episode_reward,
         stored := cfg.doStore && cfg.hasRedis }] ∧
    st3.eps = (epsStep cfg)^[st1.step_index] st.eps ∧
    (cfg.hasRedis = false → st3.queue = st.queue) ∧
    (cfg.doStore = false → st3.queue = st.queue) ∧
    (cfg.hasRedis = true → cfg.doStore = true →
      st3.queue.length = st.queue.length + 1) := by
  simp only [episodeRound, hi] at h
  obtain ⟨i1, i2, i3, i4, i5, i6, i7, i8, i9, i10, i11⟩ :=
    innerLoop_spec cfg env rng qvalues ifuel st st1 hi
  split at h
  · exact absurd h (by simp)
  · rename_i q1 hq
    split at h
    · exact absurd h (by simp)
    · rename_i hl
      split at h
      · exact absurd h (by simp)
      · rename_i c1 hld
        simp only [Option.some.injEq, RoundOut.next.injEq] at h
        subst h
        refine ⟨by omega, ?_, doReset_step_index cfg env rng _,
          doReset_envS cfg env rng _, ?_, ?_,
          ?_, ?_, ?_, ?_, ?_⟩
        · rw [doReset_episode_index]
          simp [i4]
        · intro m
          rw [doReset_seedChain]
          simp [i1]
        · intro hwf hpool
          exact doReset_protocol cfg env rng _ hwf hpool
        · rw [doReset_records]
          simp [i2, i6, i7, i8]
        · rw [doReset_eps]
          simp only
          rw [i10, hsi, Nat.sub_zero]
        · intro hr
          rw [doReset_queue]
          have hrn : cfg.redis = none := by
            rw [SamplerConfig.hasRedis] at hr
            cases hc : cfg.redis with
            | none => rfl
            | some server => rw [hc] at hr; simp at hr
          by_cases hds : cfg.doStore = true
          · rw [if_pos hds, store_episode_no_redis cfg st1 hrn] at hq
            cases hq
            simpa using i3
          · rw [if_neg hds] at hq
            cases hq
            simpa using i3
        · intro hds
          rw [doReset_queue]
          rw [if_neg (by simp [hds])] at hq
          cases hq
          simpa using i3
        · intro hr hds
          rw [doReset_queue]
          rw [if_pos hds] at hq
          have := store_episode_redis_len cfg st1 q1 hr hq
          simpa [i3] using this

/-- Master invariant of the outer loop.  Starting one episode at state `st`
(freshly reset, step counter zero), a successfully returning run appends
`newRecs` records, one per completed episode; the final episode index is
the first index `≥ 1 + st.episode_index` reaching the limit; the episode
seeds are exactly the python-stream seed list; every record's stored flag
is the store condition; the queue grows by one entry per record exactly
when a queue handle is attached and storing is enabled; and the final eps
results from one decay update per environment step across all episodes. -/
theorem outerLoop_spec :
    ∀ ofuel ifuel (st : St S Obs) (res : RunResult Obs),
      st.step_index = 0 →
      outerLoop cfg env rng qvalues ckptFS decode toT ofuel ifuel st = some res →
      ∃ newRecs : List EpisodeRecord,
        res.records = st.records ++ newRecs ∧
        1 ≤ newRecs.length ∧
        res.finalIndex = max (st.episode_index + 1) cfg.limit ∧
        newRecs.length = res.finalIndex - st.episode_index ∧
        newRecs.map EpisodeRecord.episodeSeed
          = st.cs2 :: resetSeedsFrom cfg rng (newRecs.length - 1) st.py ∧
        (∀ r ∈ newRecs, r.stored = (cfg.doStore && cfg.hasRedis)) ∧
        (rng.WF → (∀ l, cfg.seeds = some l → l ≠ []) →
          protocolOK cfg st.cd1 st.cs1 st.cs2 →
          ∀ r ∈ newRecs, protocolOK cfg r.phase1Draw r.phase1Seed r.episodeSeed) ∧
        (cfg.hasRedis = false → res.queue = st.queue) ∧
        (cfg.doStore = false → res.queue = st.queue) ∧
        (cfg.hasRedis = true → cfg.doStore = true →
          res.queue.length = st.queue.length + newRecs.length) ∧
        res.finalEps
          = (epsStep cfg)^[(newRecs.map EpisodeRecord.steps).sum] st.eps := by
  intro ofuel
  induction ofuel with
  | zero => intro ifuel st res hsi h; simp [outerLoop] at h
  | succ m ih =>
    intro ifuel st res hsi h
    cases hr : episodeRound cfg env rng qvalues ckptFS decode toT ifuel st with
    | none => simp [outerLoop, hr] at h
    | some ro =>
      cases ro with
      | finished r0 =>
        cases hi : innerLoop cfg env rng qvalues ifuel st with
        | none => exfalso; simp [episodeRound, hi] at hr
        | some st1 =>
        obtain ⟨f1, f2, f3, f4, f5, f6, f7⟩ :=
          episodeRound_finished_spec cfg env rng qvalues ckptFS decode toT
            ifuel st st1 r0 hsi hi hr
        simp only [outerLoop, hr, Option.some.injEq] at h
        subst h
        refine ⟨[⟨st.cd1, st.cs1, st.cs2, st1.step_index, st1.episode_reward,
            cfg.doStore && cfg.hasRedis⟩],
          f3, by simp, by omega, by simp [f2], ?_, ?_, ?_, f5, f6, ?_, ?_⟩
        · simp [resetSeedsFrom]
        · intro r hrm
          simp at hrm
          subst hrm
          rfl
        · intro hwf hpool hpr r hrm
          simp at hrm
          subst hrm
          exact hpr
        · intro hra hds
          simpa using f7 hra hds
        · simpa using f4
      | next stn =>
        cases hi : innerLoop cfg env rng qvalues ifuel st with
        | none => exfalso; simp [episodeRound, hi] at hr
        | some st1 =>
        simp only [outerLoop, hr] at h
        obtain ⟨e1, e2, e3, eEnv, e4, e5, e6, e7, e8, e9, e10⟩ :=
          episodeRound_next_spec cfg env rng qvalues ckptFS decode toT
            ifuel st st1 stn hsi hi hr
        obtain ⟨L, j1, j2, j3, j4, j5, j6, j7, j8, j9, j10, j11⟩ :=
          ih ifuel stn res e3 h
        have hfi : res.finalIndex = cfg.limit := by
          rw [j3, e2]; omega
        refine ⟨⟨st.cd1, st.cs1, st.cs2, st1.step_index, st1.episode_reward,
            cfg.doStore && cfg.hasRedis⟩ :: L,
          ?_, by simp, by omega, ?_, ?_, ?_, ?_, ?_, ?_, ?_, ?_⟩
        · rw [j1, e6, List.append_assoc, List.singleton_append]
        · simp only [List.length_cons]
          rw [j4, e2]
          omega
        · simp only [List.map_cons, List.length_cons]
          rw [j5]
          rw [show L.length + 1 - 1 = (L.length - 1) + 1 from by omega,
            ← e4 (L.length - 1)]
        · intro r hrm
          rcases List.mem_cons.mp hrm with hr0 | hrL
          · subst hr0; rfl
          · exact j6 r hrL
        · intro hwf hpool hpr r hrm
          rcases List.mem_cons.mp hrm with hr0 | hrL
          · subst hr0; exact hpr
          · exact j7 hwf hpool (e5 hwf hpool) r hrL
        · intro hra
          rw [j8 hra, e8 hra]
        · intro hds
          rw [j9 hds, e9 hds]
        · intro hra hds
          rw [j10 hra hds, e10 hra hds]
          simp only [List.length_cons]
          omega
        · rw [j11, e7, ← Function.iterate_add_apply]
          simp only [List.map_cons, List.sum_cons]
          rw [Nat.add_comm]

/-- Full-run invariant of `Sampler.run`: the final episode index is the
first value of the index (which starts at 1 and increments once per
completed episode) that reaches the limit, so `max 2 limit`; one record
per completed episode; the reset-seed sequence is exactly the seed list
derived from the python stream seeded at construction; the stored flag of
every episode is the store condition; the trajectory queue receives one
entry per episode exactly when a queue handle is attached and the store
condition holds, and stays empty otherwise; and the final eps results
from iterating the decay update once per environment step of the whole
run, starting from `eps_init`. -/
theorem runSampler_spec (c0 : Critic) (ifuel ofuel : Nat) (res : RunResult Obs)
    (h : runSampler cfg env rng qvalues ckptFS decode toT c0 ifuel ofuel
          = some res) :
    res.finalIndex = max 2 cfg.limit ∧
    1 ≤ res.records.length ∧
    res.records.length = res.finalIndex - 1 ∧
    res.records.map EpisodeRecord.episodeSeed
      = resetSeedsFrom cfg rng res.records.length (rng.seedPy cfg.baseSeed) ∧
    (∀ r ∈ res.records, r.stored = (cfg.doStore && cfg.hasRedis)) ∧
    (rng.WF → (∀ l, cfg.seeds = some l → l ≠ []) →
      ∀ r ∈ res.records, protocolOK cfg r.phase1Draw r.phase1Seed r.episodeSeed) ∧
    (cfg.hasRedis = false → res.queue = []) ∧
    (cfg.doStore = false → res.queue = []) ∧
    (cfg.hasRedis = true → cfg.doStore = true →
      res.queue.length = res.records.length) ∧
    res.finalEps
      = (epsStep cfg)^[(res.records.map EpisodeRecord.steps).sum]
          cfg.exploration_eps_init := by
  cases hload : load_critic_weights cfg ckptFS decode toT c0 with
  | error e => simp [runSampler, hload] at h
  | ok c1 =>
    simp only [runSampler, hload] at h
    obtain ⟨newRecs, k1, k2, k3, k4, k5, k6, k7, k8, k9, k10, k11⟩ :=
      outerLoop_spec cfg env rng qvalues ckptFS decode toT ofuel ifuel _ res
        (doReset_step_index cfg env rng _) h
    rw [doReset_records] at k1
    simp only [initialSt, List.nil_append] at k1
    rw [doReset_episode_index] at k3
    simp only [initialSt] at k3
    rw [doReset_episode_index] at k4
    simp only [initialSt] at k4
    rw [doReset_seedChain] at k5
    simp only [initialSt] at k5
    rw [doReset_queue] at k8 k9 k10
    simp only [initialSt] at k8 k9 k10
    rw [doReset_eps] at k11
    simp only [initialSt] at k11
    subst k1
    have hlen : res.records.length - 1 + 1 = res.records.length := by omega
    refine ⟨k3, k2, by omega, ?_, k6, ?_, k8, k9, ?_, k11⟩
    · rw [k5, hlen]
    · intro hwf hpool
      exact k7 hwf hpool (doReset_protocol cfg env rng _ hwf hpool)
    · intro hra hds
      rw [k10 hra hds]
      simp

end Lemmas

/-- Closed form of the eps-decay schedule: after `N` updates of
`eps = max(eps - delta, eps_final)` starting from any value `≥ eps_final`,
eps equals `max(start - N*delta, eps_final)` (for nonnegative delta). -/
theorem epsStep_iterate (cfg : SamplerConfig) (hd : 0 ≤ cfg.epsDelta)
    (e : ℚ) (he : cfg.exploration_eps_final ≤ e) :
    ∀ N : Nat, (epsStep cfg)^[N] e
      = max (e - (N : ℚ) * cfg.epsDelta) cfg.exploration_eps_final := by
  intro N
  induction N with
  | zero => simpa using (max_eq_left he).symm
  | succ n ihn =>
    rw [Function.iterate_succ_apply', ihn, epsStep, ← max_sub_sub_right,
      max_assoc, max_eq_right (sub_le_self _ hd), sub_sub]
    congr 2
    push_cast
    ring

/-- The concrete stub random source is well formed. -/
theorem stubRng_wf : stubRng.WF := by
  constructor
  · intro s
    exact Nat.mod_lt _ (by decide)
  · intro l s hl
    show l.getD (s % l.length) 0 ∈ l
    have hlen : 0 < l.length := List.length_pos.mpr hl
    rw [List.getD_eq_getElem l 0 (Nat.mod_lt _ hlen)]
    exact List.getElem_mem _

/-- On the `k`-step stub environment, the inner loop finishes in exactly
`k - j` further steps from environment state `j < k`, whenever that much
fuel is available. -/
theorem innerLoop_stub (cfg : SamplerConfig) (rng : Rng)
    (qv : Weights → List Int → List ℚ) (k : Nat) :
    ∀ fuel j (st : St Nat Int), st.envS = j → j < k → k - j ≤ fuel →
      ∃ st', innerLoop cfg (stubEnv k) rng qv fuel st = some st' ∧
        st'.step_index = st.step_index + (k - j) := by
  intro fuel
  induction fuel with
  | zero => intro j st h1 h2 h3; omega
  | succ m ihm =>
    intro j st h1 h2 h3
    have hb2 : (innerBody cfg (stubEnv k) rng qv st).2
        = decide (k ≤ st.envS + 1) := rfl
    by_cases hdone : k ≤ j + 1
    · refine ⟨(innerBody cfg (stubEnv k) rng qv st).1, ?_, ?_⟩
      · simp only [innerLoop]
        rw [if_pos (show (innerBody cfg (stubEnv k) rng qv st).2 = true from by
          rw [hb2, h1]; exact decide_eq_true hdone)]
      · have hbs : (innerBody cfg (stubEnv k) rng qv st).1.step_index
            = st.step_index + 1 := rfl
        rw [hbs]
        omega
    · have hbe : (innerBody cfg (stubEnv k) rng qv st).1.envS
          = st.envS + 1 := rfl
      obtain ⟨st', hrun, hsi⟩ :=
        ihm (j + 1) (innerBody cfg (stubEnv k) rng qv st).1
          (by rw [hbe, h1]) (by omega) (by omega)
      refine ⟨st', ?_, ?_⟩
      · simp only [innerLoop]
        rw [if_neg (show ¬(innerBody cfg (stubEnv k) rng qv st).2 = true from by
          rw [hb2, h1]; simpa using hdone)]
        exact hrun
      · have hbs : (innerBody cfg (stubEnv k) rng qv st).1.step_index
            = st.step_index + 1 := rfl
        rw [hsi, hbs]
        omega

/-- On the `k`-step stub environment with the checkpoint backend, the outer
loop terminates normally once the episode limit is within the episode
fuel, and every episode it records took exactly `k` steps. -/
theorem outerLoop_stub (cfg : SamplerConfig) (rng : Rng)
    (qv : Weights → List Int → List ℚ) (ckptFS : String → Weights)
    (decode : Blob → Option Weights) (toT : Int → Int)
    (k : Nat) (hk : 1 ≤ k) (p : String) (hres : cfg.resume = some p)
    (ifuel : Nat) (hif : k ≤ ifuel) :
    ∀ ofuel (st : St Nat Int), st.envS = 0 → st.step_index = 0 →
      1 ≤ ofuel → cfg.limit ≤ st.episode_index + ofuel →
      ∃ res, outerLoop cfg (stubEnv k) rng qv ckptFS decode toT ofuel ifuel st
          = some res ∧
        ∀ r ∈ res.records, r ∈ st.records ∨ r.steps = k := by
  intro ofuel
  induction ofuel with
  | zero => intro st h0 hsi h1 h2; omega
  | succ m ihm =>
    intro st h0 hsi h1 h2
    obtain ⟨st1, hrun, hst1si⟩ :=
      innerLoop_stub cfg rng qv k ifuel 0 st h0 (by omega) (by omega)
    obtain ⟨i1, i2, i3, i4, i5, i6, i7, i8, i9, i10, i11⟩ :=
      innerLoop_spec cfg (stubEnv k) rng qv ifuel st st1 hrun
    obtain ⟨q1, hq⟩ : ∃ q1,
        (if cfg.doStore then store_episode cfg st1 else some st1.queue)
          = some q1 := by
      by_cases hds : cfg.doStore = true
      · rw [if_pos hds]
        cases hcr : cfg.redis with
        | none => exact ⟨st1.queue, store_episode_no_redis cfg st1 hcr⟩
        | some server =>
          refine ⟨st1.queue ++ [⟨st1.buf.observations, st1.buf.actions,
            st1.buf.rewards, st1.buf.dones⟩], ?_⟩
          simp [store_episode, hcr, SamplerBuffer.getCompleteEpisode, i11]
      · rw [if_neg hds]
        exact ⟨st1.queue, rfl⟩
    obtain ⟨c1, hc1⟩ : ∃ c1,
        (if (st1.episode_index + 1) % cfg.weights_sync_period = 0
          then load_critic_weights cfg ckptFS decode toT st1.critic
          else Except.ok st1.critic) = Except.ok c1 := by
      by_cases hw : (st1.episode_index + 1) % cfg.weights_sync_period = 0
      · rw [if_pos hw]
        refine ⟨⟨ckptFS p, true⟩, ?_⟩
        simp [load_critic_weights, hres]
      · rw [if_neg hw]
        exact ⟨st1.critic, rfl⟩
    cases hro : episodeRound cfg (stubEnv k) rng qv ckptFS decode toT ifuel st with
    | none =>
      exfalso
      simp only [episodeRound, hrun, hq] at hro
      split at hro
      · exact absurd hro (by simp)
      · rw [hc1] at hro
        exact absurd hro (by simp)
    | some ro =>
      cases ro with
      | finished r0 =>
        obtain ⟨f1, f2, f3, f4, f5, f6, f7⟩ :=
          episodeRound_finished_spec cfg (stubEnv k) rng qv ckptFS decode toT
            ifuel st st1 r0 hsi hrun hro
        refine ⟨r0, ?_, ?_⟩
        · simp only [outerLoop, hro]
        · intro r hrm
          rw [f3] at hrm
          rcases List.mem_append.mp hrm with hL | hR
          · exact Or.inl hL
          · right
            rw [List.mem_singleton.mp hR]
            show st1.step_index = k
            omega
      | next stn =>
        obtain ⟨e1, e2, e3, eEnv, e4, e5, e6, e7, e8, e9, e10⟩ :=
          episodeRound_next_spec cfg (stubEnv k) rng qv ckptFS decode toT
            ifuel st st1 stn hsi hrun hro
        obtain ⟨res, hr2, hrec⟩ := ihm stn (by rw [eEnv]; rfl) e3
          (by omega) (by rw [e2]; omega)
        refine ⟨res, ?_, ?_⟩
        · simp only [outerLoop, hro]
          exact hr2
        · intro r hrm
          rcases hrec r hrm with hL | hR
          · rw [e6] at hL
            rcases List.mem_append.mp hL with hL2 | hR2
            · exact Or.inl hL2
            · right
              rw [List.mem_singleton.mp hR2]
              show st1.step_index = k
              omega
          · exact Or.inr hR

/-- On the `k`-step stub environment with the checkpoint backend, the run
returns normally once the episode limit fits within the fuel, and every
recorded episode took exactly `k` steps. -/
theorem runSampler_stub (cfg : SamplerConfig) (rng : Rng)
    (qv : Weights → List Int → List ℚ) (ckptFS : String → Weights)
    (decode : Blob → Option Weights) (toT : Int → Int) (c0 : Critic)
    (k : Nat) (path : String) (ifuel ofuel : Nat)
    (hk : 1 ≤ k) (hres : cfg.resume = some path) (hif : k ≤ ifuel)
    (h1 : 1 ≤ ofuel) (h2 : cfg.limit ≤ 1 + ofuel) :
    ∃ res, runSampler cfg (stubEnv k) rng qv ckptFS decode toT c0 ifuel ofuel
        = some res ∧ ∀ r ∈ res.records, r.steps = k := by
  have hload : load_critic_weights cfg ckptFS decode toT c0
      = Except.ok ⟨ckptFS path, true⟩ := by
    simp [load_critic_weights, hres]
  simp only [runSampler, hload]
  obtain ⟨res, hrun, hrec⟩ :=
    outerLoop_stub cfg rng qv ckptFS decode toT k hk path hres ifuel hif ofuel
      (doReset cfg (stubEnv k) rng
        (initialSt cfg (stubEnv k) rng ⟨ckptFS path, true⟩))
      (by rw [doReset_envS]; rfl)
      (doReset_step_index cfg (stubEnv k) rng _)
      h1
      (by rw [doReset_episode_index]; simpa [initialSt] using h2)
  refine ⟨res, hrun, ?_⟩
  intro r hrm
  rcases hrec r hrm with hL | hR
  · rw [doReset_records] at hL
    simp [initialSt] at hL
  · exact hR

/-- C4: for every `eps_init > eps_final` and positive `decay_steps`, with
`delta = (eps_init - eps_final) / decay_steps` and one decay update per
environment step, after `N` updates eps equals
`max(eps_init - N*delta, eps_final)`; eps never increases as the step
count grows and never drops below `eps_final`; and in every completed run
the final eps is obtained by iterating the per-step update over the total
step count of all episodes starting once from `eps_init` — the decay is
continuous across episodes and never reset. -/
theorem C4_eps_schedule (cfg : SamplerConfig)
    (h1 : cfg.exploration_eps_final < cfg.exploration_eps_init)
    (h2 : 0 < cfg.exploration_annealing_steps) :
    (∀ N : Nat, (epsStep cfg)^[N] cfg.exploration_eps_init
        = max (cfg.exploration_eps_init - (N : ℚ) * cfg.epsDelta)
            cfg.exploration_eps_final) ∧
    (∀ N M : Nat, N ≤ M →
      (epsStep cfg)^[M] cfg.exploration_eps_init
        ≤ (epsStep cfg)^[N] cfg.exploration_eps_init) ∧
    (∀ N : Nat, cfg.exploration_eps_final
        ≤ (epsStep cfg)^[N] cfg.exploration_eps_init) ∧
    (∀ (S Obs : Type) [Inhabited Obs] (env : Env S Obs) (rng : Rng)
        (qv : Weights → List Obs → List ℚ) (ckptFS : String → Weights)
        (decode : Blob → Option Weights) (toT : Int → Int) (c0 : Critic)
        (ifuel ofuel : Nat) (res : RunResult Obs),
      runSampler cfg env rng qv ckptFS decode toT c0 ifuel ofuel = some res →
      res.finalEps
        = (epsStep cfg)^[(res.records.map EpisodeRecord.steps).sum]
            cfg.exploration_eps_init) := by
  have hd : 0 ≤ cfg.epsDelta := by
    unfold SamplerConfig.epsDelta
    apply div_nonneg
    · linarith
    · exact_mod_cast Nat.zero_le _
  have he : cfg.exploration_eps_final ≤ cfg.exploration_eps_init := le_of_lt h1
  have hform := epsStep_iterate cfg hd cfg.exploration_eps_init he
  refine ⟨hform, ?_, ?_, ?_⟩
  · intro N M hNM
    rw [hform N, hform M]
    exact max_le_max
      (sub_le_sub_left
        (mul_le_mul_of_nonneg_right (by exact_mod_cast hNM) hd) _)
      (le_refl _)
  · intro N
    rw [hform N]
    exact le_max_right _ _
  · intro S Obs instO env rng qv ckptFS decode toT c0 ifuel ofuel res h
    obtain ⟨_, _, _, _, _, _, _, _, _, heps⟩ :=
      runSampler_spec cfg env rng qv ckptFS decode toT c0 ifuel ofuel res h
    exact heps

/-- Witness for C4 at the concrete base configuration. -/
theorem C4_eps_schedule_witness :
    (baseCfg.exploration_eps_final < baseCfg.exploration_eps_init ∧
      0 < baseCfg.exploration_annealing_steps) ∧
    ((∀ N : Nat, (epsStep baseCfg)^[N] baseCfg.exploration_eps_init
        = max (baseCfg.exploration_eps_init - (N : ℚ) * baseCfg.epsDelta)
            baseCfg.exploration_eps_final) ∧
    (∀ N M : Nat, N ≤ M →
      (epsStep baseCfg)^[M] baseCfg.exploration_eps_init
        ≤ (epsStep baseCfg)^[N] baseCfg.exploration_eps_init) ∧
    (∀ N : Nat, baseCfg.exploration_eps_final
        ≤ (epsStep baseCfg)^[N] baseCfg.exploration_eps_init) ∧
    (∀ (S Obs : Type) [Inhabited Obs] (env : Env S Obs) (rng : Rng)
        (qv : Weights → List Obs → List ℚ) (ckptFS : String → Weights)
        (decode : Blob → Option Weights) (toT : Int → Int) (c0 : Critic)
        (ifuel ofuel : Nat) (res : RunResult Obs),
      runSampler baseCfg env rng qv ckptFS decode toT c0 ifuel ofuel
          = some res →
      res.finalEps
        = (epsStep baseCfg)^[(res.records.map EpisodeRecord.steps).sum]
            baseCfg.exploration_eps_init)) :=
  ⟨⟨by decide, by decide⟩, C4_eps_schedule baseCfg (by decide) (by decide)⟩

/-- C7: through the shared-store backend (no checkpoint configured), a load
with the key `{prefix}_critic_weights` absent, or with a value the
deserializer rejects, fails with `WeightsUnavailableError`; and no other
error is possible on this path. -/
theorem C7_shared_store_errors (cfg : SamplerConfig)
    (ckptFS : String → Weights) (decode : Blob → Option Weights)
    (toT : Int → Int) (critic : Critic) (server : RedisServer)
    (hres : cfg.resume = none) (hsrv : cfg.redis = some server) :
    (server.get (cfg.redisPrefixStr ++ "_critic_weights") = none →
      load_critic_weights cfg ckptFS decode toT critic
        = Except.error LoadError.weightsUnavailable) ∧
    (∀ b, server.get (cfg.redisPrefixStr ++ "_critic_weights") = some b →
      decode b = none →
      load_critic_weights cfg ckptFS decode toT critic
        = Except.error LoadError.weightsUnavailable) ∧
    (∀ e, load_critic_weights cfg ckptFS decode toT critic = Except.error e →
      e = LoadError.weightsUnavailable) := by
  refine ⟨?_, ?_, ?_⟩
  · intro hg
    simp [load_critic_weights, hres, hsrv, hg]
  · intro b hg hd
    simp [load_critic_weights, hres, hsrv, hg, hd]
  · intro e he
    simp only [load_critic_weights, hres, hsrv] at he
    split at he
    · injection he with h2
      exact h2.symm
    · split at he
      · injection he with h2
        exact h2.symm
      · exact absurd he (by simp)

/-- Witness for C7: shared-store-only configuration, with the key-absent
case exercised concretely. -/
theorem C7_shared_store_errors_witness :
    (cfgStoreErr.resume = none ∧ cfgStoreErr.redis = some emptyServer) ∧
    ((emptyServer.get (cfgStoreErr.redisPrefixStr ++ "_critic_weights") = none →
      load_critic_weights cfgStoreErr stubCkpt stubDecode (fun v => v) critic0
        = Except.error LoadError.weightsUnavailable) ∧
    (∀ b, emptyServer.get (cfgStoreErr.redisPrefixStr ++ "_critic_weights")
        = some b →
      stubDecode b = none →
      load_critic_weights cfgStoreErr stubCkpt stubDecode (fun v => v) critic0
        = Except.error LoadError.weightsUnavailable) ∧
    (∀ e, load_critic_weights cfgStoreErr stubCkpt stubDecode (fun v => v)
        critic0 = Except.error e →
      e = LoadError.weightsUnavailable)) :=
  ⟨⟨rfl, rfl⟩, C7_shared_store_errors cfgStoreErr stubCkpt stubDecode
    (fun v => v) critic0 emptyServer rfl rfl⟩

/-- C8: every successful weight load leaves the critic in evaluation mode
and installs the full fetched parameter mapping wholesale — the checkpoint
state dict, or the deserialized shared-store mapping with each value moved
to the device — independently of the critic's previous parameters (no
partial merge or filtering). -/
theorem C8_wholesale_install (cfg : SamplerConfig)
    (ckptFS : String → Weights) (decode : Blob → Option Weights)
    (toT : Int → Int) (critic c1 : Critic)
    (h : load_critic_weights cfg ckptFS decode toT critic = Except.ok c1) :
    c1.evalMode = true ∧
    (∀ path, cfg.resume = some path → c1.params = ckptFS path) ∧
    (∀ server b w, cfg.resume = none → cfg.redis = some server →
      server.get (cfg.redisPrefixStr ++ "_critic_weights") = some b →
      decode b = some w →
      c1.params = w.map (fun kv => (kv.1, toT kv.2))) ∧
    (∀ critic2, load_critic_weights cfg ckptFS decode toT critic2
        = Except.ok c1) := by
  cases hres : cfg.resume with
  | some path =>
    simp only [load_critic_weights, hres, Except.ok.injEq] at h
    subst h
    refine ⟨rfl, ?_, ?_, ?_⟩
    · intro p hp
      injection hp with h2
      subst h2
      rfl
    · intro server b w hnone _ _ _
      exact absurd hnone (by simp)
    · intro critic2
      simp [load_critic_weights, hres]
  | none =>
    cases hsrv : cfg.redis with
    | none => simp [load_critic_weights, hres, hsrv] at h
    | some server =>
      cases hg : server.get (cfg.redisPrefixStr ++ "_critic_weights") with
      | none => simp [load_critic_weights, hres, hsrv, hg] at h
      | some b =>
        cases hd : decode b with
        | none => simp [load_critic_weights, hres, hsrv, hg, hd] at h
        | some w =>
          simp only [load_critic_weights, hres, hsrv, hg, hd,
            Except.ok.injEq] at h
          subst h
          refine ⟨rfl, ?_, ?_, ?_⟩
          · intro p hp
            exact absurd hp (by simp)
          · intro server2 b2 w2 _ hsrv2 hg2 hd2
            injection hsrv2 with hS
            subst hS
            rw [hg] at hg2
            injection hg2 with hB
            subst hB
            rw [hd] at hd2
            injection hd2 with hW
            subst hW
            rfl
          · intro critic2
            simp [load_critic_weights, hres, hsrv, hg, hd]

/-- Witness for C8 at the concrete checkpoint-backend configuration. -/
theorem C8_wholesale_install_witness :
    (load_critic_weights baseCfg stubCkpt stubDecode (fun v => v) critic0
      = Except.ok { params := stubCkpt "ckpt", evalMode := true }) ∧
    ({ params := stubCkpt "ckpt", evalMode := true : Critic }.evalMode = true ∧
    (∀ path, baseCfg.resume = some path →
      ({ params := stubCkpt "ckpt", evalMode := true : Critic }).params
        = stubCkpt path) ∧
    (∀ server b w, baseCfg.resume = none → baseCfg.redis = some server →
      server.get (baseCfg.redisPrefixStr ++ "_critic_weights") = some b →
      stubDecode b = some w →
      ({ params := stubCkpt "ckpt", evalMode := true : Critic }).params
        = w.map (fun kv => (kv.1, (fun v => v : Int → Int) kv.2))) ∧
    (∀ critic2, load_critic_weights baseCfg stubCkpt stubDecode (fun v => v)
        critic2
      = Except.ok { params := stubCkpt "ckpt", evalMode := true })) :=
  ⟨rfl, C8_wholesale_install baseCfg stubCkpt stubDecode (fun v => v)
    critic0 { params := stubCkpt "ckpt", evalMode := true } rfl⟩

/-- C10: with a checkpoint path configured, every weight load reads the
checkpoint and succeeds, for every shared-store handle (including one
simultaneously configured) and every deserializer: the shared store is
never consulted, no error is raised, and the checkpoint silently takes
precedence. -/
theorem C10_checkpoint_precedence (cfg : SamplerConfig)
    (ckptFS : String → Weights) (toT : Int → Int) (path : String)
    (hres : cfg.resume = some path) :
    ∀ (critic : Critic) (redisOpt : Option RedisServer)
      (decode : Blob → Option Weights),
      load_critic_weights { cfg with redis := redisOpt } ckptFS decode toT
          critic
        = Except.ok { params := ckptFS path, evalMode := true } := by
  intro critic redisOpt decode
  simp [load_critic_weights, hres]

/-- Witness for C10 with both backends configured simultaneously. -/
theorem C10_checkpoint_precedence_witness :
    baseCfg.resume = some "ckpt" ∧
    (∀ (critic : Critic) (redisOpt : Option RedisServer)
      (decode : Blob → Option Weights),
      load_critic_weights { baseCfg with redis := redisOpt } stubCkpt decode
          (fun v => v) critic
        = Except.ok { params := stubCkpt "ckpt", evalMode := true }) :=
  ⟨rfl, C10_checkpoint_precedence baseCfg stubCkpt (fun v => v) "ckpt" rfl⟩

/-- C3: refutation of construction-time backend validation.  With zero
weight backends configured, construction still completes (it is a total
function of the configuration that performs no backend check and defines
no ConfigurationError); the failure surfaces only at the first weight
load, and as `NotImplementedError`. -/
theorem C3_counterexample :
    (Sampler.construct cfgZeroBackend stubRng).theSeed = 42 ∧
    (Sampler.construct cfgZeroBackend stubRng).eps = 1 ∧
    load_critic_weights cfgZeroBackend stubCkpt stubDecode (fun v => v) critic0
      = Except.error LoadError.notImplemented := by
  refine ⟨by decide, by decide, rfl⟩

/-- C3 (amended): construction never validates the weight backends and
completes for every configuration — zero, one or two backends alike; with
zero backends the first weight load raises `NotImplementedError`; with a
checkpoint configured (alone or together with a shared store) every load
succeeds with the checkpoint parameters; with only a shared store whose
key is present and deserializable, loads succeed as well. -/
theorem C3_amended_construction (cfg : SamplerConfig) (rng : Rng)
    (ckptFS : String → Weights) (decode : Blob → Option Weights)
    (toT : Int → Int) :
    (Sampler.construct cfg rng).theSeed = 42 + cfg.id ∧
    (Sampler.construct cfg rng).eps = cfg.exploration_eps_init ∧
    (cfg.resume = none → cfg.redis = none → ∀ critic,
      load_critic_weights cfg ckptFS decode toT critic
        = Except.error LoadError.notImplemented) ∧
    (∀ path, cfg.resume = some path → ∀ critic,
      load_critic_weights cfg ckptFS decode toT critic
        = Except.ok { params := ckptFS path, evalMode := true }) ∧
    (∀ server b w, cfg.resume = none → cfg.redis = some server →
      server.get (cfg.redisPrefixStr ++ "_critic_weights") = some b →
      decode b = some w → ∀ critic,
      load_critic_weights cfg ckptFS decode toT critic
        = Except.ok { params := w.map (fun kv => (kv.1, toT kv.2)),
                      evalMode := true }) := by
  refine ⟨rfl, rfl, ?_, ?_, ?_⟩
  · intro hn1 hn2 critic
    simp [load_critic_weights, hn1, hn2]
  · intro path hp critic
    simp [load_critic_weights, hp]
  · intro server b w hn1 hs hg hd critic
    simp [load_critic_weights, hn1, hs, hg, hd]

/-- Witness for the amended C3: the zero-backend failure point and the
one-backend success, both at concrete configurations. -/
theorem C3_amended_construction_witness :
    load_critic_weights cfgZeroBackend stubCkpt stubDecode (fun v => v) critic0
      = Except.error LoadError.notImplemented ∧
    load_critic_weights baseCfg stubCkpt stubDecode (fun v => v) critic0
      = Except.ok { params := stubCkpt "ckpt", evalMode := true } :=
  ⟨(C3_amended_construction cfgZeroBackend stubRng stubCkpt stubDecode
      (fun v => v)).2.2.1 rfl rfl critic0,
   (C3_amended_construction baseCfg stubRng stubCkpt stubDecode
      (fun v => v)).2.2.2.1 "ckpt" rfl critic0⟩

/-- C1: refutation of the three-episode count.  With `episode_limit = 3`,
the 5-step stub environment and a constant-score stub estimator, the run
emits exactly 2 episodes of 5 steps each before terminating with the
episode index at 3: the index starts at 1 and the check
`episode_index >= episode_limit` fires after the increment, so the claimed
3 emitted episodes is wrong. -/
theorem C1_counterexample :
    (runOf baseCfg 5 stubQ).map
        (fun r => (r.records.map EpisodeRecord.steps, r.queue.length,
          r.finalIndex))
      = some ([5, 5], 2, 3) ∧
    ¬ (runOf baseCfg 5 stubQ).map (fun r => r.queue.length) = some 3 := by
  refine ⟨by decide, by decide⟩

/-- C1 (amended): for every `episode_limit = L ≥ 2` over the fixed `k`-step
stub environment with a checkpoint backend, the run completes and emits
exactly `L - 1` episodes of `k` steps each; the episode index starts at 1,
increments after each completed episode, and the run terminates exactly
when the index reaches `L` (so `episode_limit = 3` yields 2 episodes of 5
steps, not 3). -/
theorem C1_amended_run (cfg : SamplerConfig) (rng : Rng)
    (qv : Weights → List Int → List ℚ) (ckptFS : String → Weights)
    (decode : Blob → Option Weights) (toT : Int → Int) (c0 : Critic)
    (k L ifuel ofuel : Nat) (path : String)
    (hk : 1 ≤ k) (hL : 2 ≤ L) (hlim : cfg.episode_limit = some L)
    (hres : cfg.resume = some path) (hif : k ≤ ifuel) (hof : L ≤ ofuel) :
    ∃ res, runSampler cfg (stubEnv k) rng qv ckptFS decode toT c0 ifuel ofuel
        = some res ∧
      res.records.length = L - 1 ∧
      res.finalIndex = L ∧
      (∀ r ∈ res.records, r.steps = k) := by
  have hlimit : cfg.limit = L := by
    simp only [SamplerConfig.limit, hlim]
    rw [if_neg (by omega : ¬L = 0)]
  obtain ⟨res, hrun, hsteps⟩ :=
    runSampler_stub cfg rng qv ckptFS decode toT c0 k path ifuel ofuel hk hres
      hif (by omega) (by rw [hlimit]; omega)
  obtain ⟨hfi, hl1, hlen, _, _, _, _, _, _, _⟩ :=
    runSampler_spec cfg (stubEnv k) rng qv ckptFS decode toT c0 ifuel ofuel
      res hrun
  refine ⟨res, hrun, ?_, ?_, hsteps⟩
  · rw [hlen, hfi, hlimit]
    omega
  · rw [hfi, hlimit]
    omega

/-- Witness for the amended C1 at the concrete scenario
(`episode_limit = 3`, 5-step episodes). -/
theorem C1_amended_run_witness :
    (1 ≤ 5 ∧ 2 ≤ 3 ∧ baseCfg.episode_limit = some 3 ∧
      baseCfg.resume = some "ckpt" ∧ 5 ≤ 6 ∧ 3 ≤ 4) ∧
    (∃ res, runSampler baseCfg (stubEnv 5) stubRng stubQ stubCkpt stubDecode
        (fun v => v) critic0 6 4 = some res ∧
      res.records.length = 3 - 1 ∧
      res.finalIndex = 3 ∧
      (∀ r ∈ res.records, r.steps = 5)) :=
  ⟨⟨by decide, by decide, rfl, rfl, by decide, by decide⟩,
   C1_amended_run baseCfg stubRng stubQ stubCkpt stubDecode (fun v => v)
     critic0 5 3 6 4 "ckpt" (by decide) (by decide) rfl rfl (by decide)
     (by decide)⟩

/-- C2: with a shared queue handle attached, a completed run pushes each
completed episode to the trajectory queue if and only if
`mode == train` or `force_store` holds: every episode record's stored flag
equals that condition, the queue gains one entry per episode when it
holds, and stays empty when it fails.  In particular `mode = infer` with
`force_store = true` pushes every completed episode. -/
theorem C2_store_condition {S Obs : Type} [Inhabited Obs]
    (cfg : SamplerConfig) (env : Env S Obs) (rng : Rng)
    (qv : Weights → List Obs → List ℚ) (ckptFS : String → Weights)
    (decode : Blob → Option Weights) (toT : Int → Int) (c0 : Critic)
    (ifuel ofuel : Nat) (res : RunResult Obs)
    (hredis : cfg.hasRedis = true)
    (h : runSampler cfg env rng qv ckptFS decode toT c0 ifuel ofuel
          = some res) :
    (∀ r ∈ res.records,
      r.stored = (decide (cfg.mode = Mode.train) || cfg.force_store)) ∧
    ((decide (cfg.mode = Mode.train) || cfg.force_store) = true →
      res.queue.length = res.records.length) ∧
    ((decide (cfg.mode = Mode.train) || cfg.force_store) = false →
      res.queue = []) := by
  have hds : cfg.doStore
      = (decide (cfg.mode = Mode.train) || cfg.force_store) := by
    cases hm : cfg.mode <;>
      simp [SamplerConfig.doStore, SamplerConfig.isInfer, hm]
  obtain ⟨_, _, _, _, hstored, _, hq1, hq2, hq3, _⟩ :=
    runSampler_spec cfg env rng qv ckptFS decode toT c0 ifuel ofuel res h
  refine ⟨?_, ?_, ?_⟩
  · intro r hr
    rw [hstored r hr, hds, hredis]
    simp
  · intro hT
    exact hq3 hredis (by rw [hds]; exact hT)
  · intro hF
    exact hq2 (by rw [hds]; exact hF)

/-- Witness for C2 at the infer-mode, force-store configuration. -/
theorem C2_store_condition_witness :
    (cfgInfer.hasRedis = true ∧
      runOf cfgInfer 5 stubQ = some (resOf cfgInfer 5 stubQ)) ∧
    ((∀ r ∈ (resOf cfgInfer 5 stubQ).records,
        r.stored
          = (decide (cfgInfer.mode = Mode.train) || cfgInfer.force_store)) ∧
     ((decide (cfgInfer.mode = Mode.train) || cfgInfer.force_store) = true →
        (resOf cfgInfer 5 stubQ).queue.length
          = (resOf cfgInfer 5 stubQ).records.length) ∧
     ((decide (cfgInfer.mode = Mode.train) || cfgInfer.force_store) = false →
        (resOf cfgInfer 5 stubQ).queue = [])) :=
  ⟨⟨rfl, by with_unfolding_all decide⟩,
   C2_store_condition cfgInfer (stubEnv 5) stubRng stubQ stubCkpt stubDecode
     (fun v => v) critic0 6 4 (resOf cfgInfer 5 stubQ) rfl
     (by with_unfolding_all decide)⟩

/-- C5: determinism of episode-reset seeds.  Two completed runs with the
same configuration and random source produce identical sequences of
episode-reset seeds — even when the environments, estimators, checkpoint
contents, deserializers and fuels differ between the two runs. -/
theorem C5_seed_determinism {S1 O1 S2 O2 : Type} [Inhabited O1] [Inhabited O2]
    (cfg : SamplerConfig) (rng : Rng) (env1 : Env S1 O1) (env2 : Env S2 O2)
    (qv1 : Weights → List O1 → List ℚ) (qv2 : Weights → List O2 → List ℚ)
    (ck1 ck2 : String → Weights) (de1 de2 : Blob → Option Weights)
    (toT1 toT2 : Int → Int) (c1 c2 : Critic) (if1 of1 if2 of2 : Nat)
    (res1 : RunResult O1) (res2 : RunResult O2)
    (h1 : runSampler cfg env1 rng qv1 ck1 de1 toT1 c1 if1 of1 = some res1)
    (h2 : runSampler cfg env2 rng qv2 ck2 de2 toT2 c2 if2 of2 = some res2) :
    res1.records.map EpisodeRecord.episodeSeed
      = res2.records.map EpisodeRecord.episodeSeed := by
  obtain ⟨f1, _, n1, s1, _, _, _, _, _, _⟩ :=
    runSampler_spec cfg env1 rng qv1 ck1 de1 toT1 c1 if1 of1 res1 h1
  obtain ⟨f2, _, n2, s2, _, _, _, _, _, _⟩ :=
    runSampler_spec cfg env2 rng qv2 ck2 de2 toT2 c2 if2 of2 res2 h2
  rw [s1, s2]
  have hlen : res1.records.length = res2.records.length := by
    rw [n1, n2, f1, f2]
  rw [hlen]

/-- Witness for C5: two runs over different environments (5-step and
3-step) with different estimators still produce the same seed sequence. -/
theorem C5_seed_determinism_witness :
    (runOf baseCfg 5 stubQ = some (resOf baseCfg 5 stubQ) ∧
     runOf baseCfg 3 stubQ2 = some (resOf baseCfg 3 stubQ2)) ∧
    (resOf baseCfg 5 stubQ).records.map EpisodeRecord.episodeSeed
      = (resOf baseCfg 3 stubQ2).records.map EpisodeRecord.episodeSeed :=
  ⟨⟨by with_unfolding_all decide, by with_unfolding_all decide⟩,
   C5_seed_determinism baseCfg stubRng (stubEnv 5) (stubEnv 3) stubQ stubQ2
     stubCkpt stubCkpt stubDecode stubDecode (fun v => v) (fun v => v)
     critic0 critic0 6 4 6 4 (resOf baseCfg 5 stubQ) (resOf baseCfg 3 stubQ2)
     (by with_unfolding_all decide) (by with_unfolding_all decide)⟩

/-- C6: the two-phase seeding protocol runs on every entry to the reset
phase.  In every completed run, each episode's phase-1 seed equals
`base_actor_seed` plus a uniform draw in `[0, SEED_RANGE)`, and its
episode seed is a fresh uniform draw in `[0, SEED_RANGE)` when no seed
pool is configured, else a pick from the pool; moreover the reset phase
leaves both shared random streams seeded with exactly the episode seed
that the environment reset receives. -/
theorem C6_two_phase_seeding {S Obs : Type} [Inhabited Obs]
    (cfg : SamplerConfig) (env : Env S Obs) (rng : Rng)
    (qv : Weights → List Obs → List ℚ) (ckptFS : String → Weights)
    (decode : Blob → Option Weights) (toT : Int → Int) (c0 : Critic)
    (ifuel ofuel : Nat) (res : RunResult Obs)
    (hwf : rng.WF) (hpool : ∀ l, cfg.seeds = some l → l ≠ [])
    (h : runSampler cfg env rng qv ckptFS decode toT c0 ifuel ofuel
          = some res) :
    (∀ r ∈ res.records,
      r.phase1Seed = cfg.baseSeed + r.phase1Draw ∧
      r.phase1Draw < SEED_RANGE ∧
      (cfg.seeds = none → r.episodeSeed < SEED_RANGE) ∧
      (∀ l, cfg.seeds = some l → r.episodeSeed ∈ l)) ∧
    (∀ st : St S Obs,
      (doReset cfg env rng st).py = rng.seedPy (doReset cfg env rng st).cs2 ∧
      (doReset cfg env rng st).npS
        = rng.seedNp (doReset cfg env rng st).cs2 ∧
      (doReset cfg env rng st).envS
        = (env.reset (doReset cfg env rng st).cs2).1) := by
  obtain ⟨_, _, _, _, _, hproto, _, _, _, _⟩ :=
    runSampler_spec cfg env rng qv ckptFS decode toT c0 ifuel ofuel res h
  refine ⟨hproto hwf hpool, ?_⟩
  intro st
  obtain ⟨_, _, _, _, _, _, d7, d8, d9⟩ := doReset_spec cfg env rng st
  exact ⟨d7, d8, d9⟩

/-- Witness for C6 at the fixed-pool configuration with the concrete
well-formed random source. -/
theorem C6_two_phase_seeding_witness :
    (stubRng.WF ∧ (∀ l, cfgPool.seeds = some l → l ≠ []) ∧
      runOf cfgPool 5 stubQ = some (resOf cfgPool 5 stubQ)) ∧
    ((∀ r ∈ (resOf cfgPool 5 stubQ).records,
      r.phase1Seed = cfgPool.baseSeed + r.phase1Draw ∧
      r.phase1Draw < SEED_RANGE ∧
      (cfgPool.seeds = none → r.episodeSeed < SEED_RANGE) ∧
      (∀ l, cfgPool.seeds = some l → r.episodeSeed ∈ l)) ∧
    (∀ st : St Nat Int,
      (doReset cfgPool (stubEnv 5) stubRng st).py
        = stubRng.seedPy (doReset cfgPool (stubEnv 5) stubRng st).cs2 ∧
      (doReset cfgPool (stubEnv 5) stubRng st).npS
        = stubRng.seedNp (doReset cfgPool (stubEnv 5) stubRng st).cs2 ∧
      (doReset cfgPool (stubEnv 5) stubRng st).envS
        = ((stubEnv 5).reset
            (doReset cfgPool (stubEnv 5) stubRng st).cs2).1)) :=
  ⟨⟨stubRng_wf,
    by intro l hl; simp [cfgPool] at hl; subst hl; decide,
    by with_unfolding_all decide⟩,
   C6_two_phase_seeding cfgPool (stubEnv 5) stubRng stubQ stubCkpt stubDecode
     (fun v => v) critic0 6 4 (resOf cfgPool 5 stubQ) stubRng_wf
     (by intro l hl; simp [cfgPool] at hl; subst hl; decide)
     (by with_unfolding_all decide)⟩

/-- C9: with no shared queue handle configured, the episode-store operation
returns immediately with the queue unchanged and raises nothing, whatever
the mode and force-store flag; and at run level every completed episode is
silently dropped — the trajectory queue of a completed run is empty. -/
theorem C9_silent_drop {S Obs : Type} [Inhabited Obs]
    (cfg : SamplerConfig) (env : Env S Obs) (rng : Rng)
    (qv : Weights → List Obs → List ℚ) (ckptFS : String → Weights)
    (decode : Blob → Option Weights) (toT : Int → Int) (c0 : Critic)
    (ifuel ofuel : Nat) (res : RunResult Obs)
    (hredis : cfg.redis = none) :
    (∀ st : St S Obs, store_episode cfg st = some st.queue) ∧
    (runSampler cfg env rng qv ckptFS decode toT c0 ifuel ofuel = some res →
      res.queue = []) := by
  refine ⟨fun st => store_episode_no_redis cfg st hredis, ?_⟩
  intro h
  obtain ⟨_, _, _, _, _, _, hq1, _, _, _⟩ :=
    runSampler_spec cfg env rng qv ckptFS decode toT c0 ifuel ofuel res h
  exact hq1 (by simp [SamplerConfig.hasRedis, hredis])

/-- Witness for C9: a train-mode run with no queue handle completes with an
empty trajectory queue. -/
theorem C9_silent_drop_witness :
    (cfgNoRedis.redis = none ∧
      runOf cfgNoRedis 5 stubQ = some (resOf cfgNoRedis 5 stubQ)) ∧
    ((∀ st : St Nat Int, store_episode cfgNoRedis st = some st.queue) ∧
     (runSampler cfgNoRedis (stubEnv 5) stubRng stubQ stubCkpt stubDecode
        (fun v => v) critic0 6 4 = some (resOf cfgNoRedis 5 stubQ) →
      (resOf cfgNoRedis 5 stubQ).queue = [])) :=
  ⟨⟨rfl, by with_unfolding_all decide⟩,
   C9_silent_drop cfgNoRedis (stubEnv 5) stubRng stubQ stubCkpt stubDecode
     (fun v => v) critic0 6 4 (resOf cfgNoRedis 5 stubQ) rfl⟩
